import Mathlib

/-!
Shallow embedding of `mdp.py`: a deterministic grid-world MDP.

Conventions of the embedding:
* Python `float` rewards only ever hold finite values supplied by the caller or
  `float('-inf')`; no arithmetic is performed on them.  They are modelled as
  `WithBot ℚ`, with `⊥` standing for `float('-inf')`.
* A Python function that can fail an `assert` (or raise an index error) is
  modelled as returning `Option`, `none` being the raised error.
* Python integers are `Int`; Python floor division `//` and `%` are `Int.fdiv`
  and `Int.fmod`.
* A numpy `S × A` array is modelled as a total function `Nat → Nat → Rw`;
  only indices in `[0, S) × [0, A)` are meaningful.  Numpy integer indexing
  accepts negative indices counted from the end (`npIdx`), and raises for
  indices outside `[-S, S)`.
* A Python dict keyed by coordinate pairs is an association list
  `List ((Int × Int) × ℚ)` queried with `List.lookup`.
-/

namespace Mdp

/-- Reward values: a finite float, or `⊥` for `float('-inf')`. -/
abbrev Rw : Type := WithBot ℚ

/-- The `Actions` enumeration of `GridWorldMDP` as its integer values:
UP = 0, DOWN = 1, LEFT = 2, RIGHT = 3, UP_LEFT = 4, UP_RIGHT = 5,
DOWN_LEFT = 6, DOWN_RIGHT = 7, ABSORB = 8. -/
def ABSORB : Nat := 8

/-- Number of actions, `len(Actions)`. -/
def numActions : Nat := 9

/-- `MDP.__init__(S, A, rewards, transition)`, reduced to its assertion
checks.  In this integer embedding the `isinstance(S, int)` and
`isinstance(A, int)` asserts always hold, so the remaining checks are
`rewards.shape == (S, A)` (a numpy shape is a pair of natural numbers) and
`callable(transition)`.  Returns `true` when construction succeeds. -/
def mdpInitOk (S A : Int) (shape : Nat × Nat) (isCallable : Bool) : Bool :=
  decide (S = (shape.1 : Int)) && decide (A = (shape.2 : Int)) && isCallable

/-- `GridWorldMDP.state_to_coor(s)`: asserts `s < rows * cols`, then returns
`(s // cols, s % cols)` (Python floor division).  There is no lower bound
check, so negative `s` succeeds. -/
def state_to_coor (rows cols : Nat) (s : Int) : Option (Int × Int) :=
  if s < (rows * cols : Nat) then some (s.fdiv cols, s.fmod cols) else none

/-- `GridWorldMDP.coor_to_state(r, c)`: asserts `0 <= r < rows` and
`0 <= c < cols`, then returns `r * cols + c`. -/
def coor_to_state (rows cols : Nat) (r c : Int) : Option Int :=
  if 0 ≤ r ∧ r < (rows : Int) ∧ 0 ≤ c ∧ c < (cols : Int) then
    some (r * cols + c)
  else none

/-- The if/elif chain of `GridWorldMDP._transition` that shifts the current
coordinate `(r, c)` according to action `a` (already known to satisfy
`0 ≤ a < 9`); `a = 8` (ABSORB) leaves the coordinate unchanged. -/
def applyAction (r c : Int) (a : Int) : Int × Int :=
  if a = 0 then (r - 1, c)
  else if a = 1 then (r + 1, c)
  else if a = 2 then (r, c - 1)
  else if a = 3 then (r, c + 1)
  else if a = 4 then (r - 1, c - 1)
  else if a = 5 then (r - 1, c + 1)
  else if a = 6 then (r + 1, c - 1)
  else if a = 7 then (r + 1, c + 1)
  else (r, c)

/-- `GridWorldMDP._transition(s, a, alert_illegal=True)`: decodes `s`,
asserts `0 ≤ a < len(Actions)`, applies the action's shift, reverts to the
origin coordinate and flags illegality when the shifted coordinate leaves
the grid, and re-encodes the resulting coordinate.  Returns the next state
together with the illegality flag. -/
def transition (rows cols : Nat) (s a : Int) : Option (Int × Bool) :=
  match state_to_coor rows cols s with
  | none => none
  | some (r, c) =>
    if 0 ≤ a ∧ a < (numActions : Int) then
      let rc : Int × Int := applyAction r c a
      if rc.1 < 0 ∨ (rows : Int) ≤ rc.1 ∨ rc.2 < 0 ∨ (cols : Int) ≤ rc.2 then
        (coor_to_state rows cols r c).map (fun s2 => (s2, true))
      else
        (coor_to_state rows cols rc.1 rc.2).map (fun s2 => (s2, false))
    else none

/-- The reward-table filling loop of `GridWorldMDP.__init__`: the table
starts filled with `default_reward`; for each `(s, a)` the loop computes
`(s_prime, illegal) = _transition(s, a, alert_illegal=True)` and
`coor = state_to_coor(s_prime)`; if the move is legal and `coor` is a key of
`reward_dict` the entry becomes the override, and if the move is illegal the
entry becomes `float('-inf')`.  Entries outside `[0, S) × [0, 9)` do not
exist in the numpy array and are left at the default here. -/
def buildRewards (rows cols : Nat) (rdict : List ((Int × Int) × ℚ))
    (default_reward : ℚ) : Nat → Nat → Rw := fun s a =>
  match transition rows cols s a with
  | none => (default_reward : Rw)
  | some (s2, illegal) =>
    match state_to_coor rows cols s2 with
    | none => (default_reward : Rw)
    | some coor =>
      if illegal then (⊥ : Rw)
      else
        match List.lookup coor rdict with
        | some v => (v : Rw)
        | none => (default_reward : Rw)

/-- Numpy integer indexing into an axis of length `S`: an index `g` with
`0 ≤ g < S` is used as is, an index with `-S ≤ g < 0` counts from the end
(`S + g`), and anything else raises `IndexError`. -/
def npIdx (S : Nat) (g : Int) : Option Nat :=
  if 0 ≤ g ∧ g < (S : Int) then some g.toNat
  else if -(S : Int) ≤ g ∧ g < 0 then some ((S : Int) + g).toNat
  else none

/-- `GridWorldMDP.set_goal(goal_state)`: fills the ABSORB column of the
reward table with `float('-inf')`; then, if `goal_state` is not `None`,
sets `rewards[goal_state, ABSORB] = 0` (numpy indexing, so negative goals
count from the end and out-of-range goals raise). -/
def set_goal (S : Nat) (t : Nat → Nat → Rw) (goal_state : Option Int) :
    Option (Nat → Nat → Rw) :=
  let t1 : Nat → Nat → Rw := fun s a => if a = ABSORB then (⊥ : Rw) else t s a
  match goal_state with
  | none => some t1
  | some g =>
    (npIdx S g).map (fun i => fun s a =>
      if s = i ∧ a = ABSORB then (0 : Rw) else t1 s a)

/-- `GridWorldMDP.set_all_goals()`: fills the ABSORB column with 0. -/
def set_all_goals (t : Nat → Nat → Rw) : Nat → Nat → Rw :=
  fun s a => if a = ABSORB then (0 : Rw) else t s a

/-- The `state_rewards` vector built by `GridWorldMDP.__init__`: every state
starts at `default_reward` and each dict entry `(r, c) ↦ v` overwrites index
`coor_to_state(r, c)`; the `coor_to_state` asserts make construction fail on
an out-of-range key.  Later dict entries overwrite earlier ones, matching
Python dict iteration over distinct keys. -/
def buildStateRewards (rows cols : Nat) (rdict : List ((Int × Int) × ℚ))
    (default_reward : ℚ) : Option (Nat → Rw) :=
  rdict.foldl
    (fun acc kv =>
      match acc with
      | none => none
      | some v =>
        match coor_to_state rows cols kv.1.1 kv.1.2 with
        | none => none
        | some i => some (fun s => if (s : Int) = i then (kv.2 : Rw) else v s))
    (some (fun _ => (default_reward : Rw)))

/-- `GridWorldMDP.__init__(rows, cols, reward_dict, goal_state, default_reward)`:
asserts `rows > 0` and `cols > 0`, fills the reward table with the loop above,
builds `state_rewards` (whose asserts require every dict key in range), and
finally calls `set_goal(goal_state)`.  Returns the finished reward table. -/
def gridWorldInit (rows cols : Nat) (rdict : List ((Int × Int) × ℚ))
    (goal_state : Option Int) (default_reward : ℚ) :
    Option (Nat → Nat → Rw) :=
  if 0 < rows ∧ 0 < cols then
    (buildStateRewards rows cols rdict default_reward).bind (fun _ =>
      set_goal (rows * cols) (buildRewards rows cols rdict default_reward) goal_state)
  else none

/-- A `GridWorldMDP` instance as seen by the heap model used for `copy()`:
its grid dimensions and a reference (index) into a store of reward tables. -/
structure GWRef where
  rows : Nat
  cols : Nat
  rid : Nat
  deriving DecidableEq

/-- The heap of live reward tables; a `GWRef.rid` indexes into it. -/
abbrev Store : Type := List (Nat → Nat → Rw)

/-- `GridWorldMDP.copy()`: constructs `GridWorldMDP(rows, cols, {})` (a fresh
table, immediately discarded) and overwrites its `rewards` with
`np.copy(self.rewards)` — a freshly allocated table holding the same entries
as the source.  The new table is appended to the store and the returned
instance references it. -/
def copyOp (g : GWRef) (st : Store) : Option (GWRef × Store) :=
  (gridWorldInit g.rows g.cols [] none 0).bind (fun _ =>
    (st.get? g.rid).map (fun tsrc => (⟨g.rows, g.cols, st.length⟩, st ++ [tsrc])))

/-- `set_goal` performed on an instance in the heap model: reads the
instance's table, rewrites it, and stores the result back at the same
reference. -/
def setGoalRef (g : GWRef) (goal_state : Option Int) (st : Store) :
    Option Store :=
  (st.get? g.rid).bind (fun t =>
    (set_goal (g.rows * g.cols) t goal_state).map (fun t2 => st.set g.rid t2))

/-- The per-action coordinate shift as the specification states it:
UP:(-1,0), DOWN:(+1,0), LEFT:(0,-1), RIGHT:(0,+1), UP_LEFT:(-1,-1),
UP_RIGHT:(-1,+1), DOWN_LEFT:(+1,-1), DOWN_RIGHT:(+1,+1), ABSORB:(0,0).
Stated from the spec's words, to be compared with `transition`. -/
def specDelta (a : Nat) : Int × Int :=
  match a with
  | 0 => (-1, 0)
  | 1 => (1, 0)
  | 2 => (0, -1)
  | 3 => (0, 1)
  | 4 => (-1, -1)
  | 5 => (-1, 1)
  | 6 => (1, -1)
  | 7 => (1, 1)
  | _ => (0, 0)

/-- The destination coordinate of `(s, a)` in the spec's sense: the row-major
coordinate of `s` shifted by the action's delta. -/
def destCoor (cols : Nat) (s a : Nat) : Int × Int :=
  (((s / cols : Nat) : Int) + (specDelta a).1,
   ((s % cols : Nat) : Int) + (specDelta a).2)

/-- A coordinate lies inside `[0, rows) × [0, cols)`. -/
def inBounds (rows cols : Nat) (p : Int × Int) : Prop :=
  0 ≤ p.1 ∧ p.1 < (rows : Int) ∧ 0 ≤ p.2 ∧ p.2 < (cols : Int)

instance (rows cols : Nat) (p : Int × Int) : Decidable (inBounds rows cols p) := by
  unfold inBounds; infer_instance

lemma fdiv_natCast (s cols : Nat) :
    (s : Int).fdiv (cols : Int) = ((s / cols : Nat) : Int) := by
  rw [Int.fdiv_eq_ediv _ (by positivity)]
  exact (Int.natCast_div s cols).symm

lemma fmod_natCast (s cols : Nat) :
    (s : Int).fmod (cols : Int) = ((s % cols : Nat) : Int) := by
  rw [Int.fmod_eq_emod _ (by positivity)]
  exact_mod_cast (Int.natCast_mod s cols).symm

lemma encode_div (r c cols : Nat) (hc : c < cols) : (r * cols + c) / cols = r := by
  rw [Nat.mul_comm r cols, Nat.mul_add_div (by omega), Nat.div_eq_of_lt hc]; omega

lemma encode_mod (r c cols : Nat) (hc : c < cols) : (r * cols + c) % cols = c := by
  rw [Nat.mul_comm r cols, Nat.mul_add_mod, Nat.mod_eq_of_lt hc]

lemma encode_lt (r c rows cols : Nat) (hr : r < rows) (hc : c < cols) :
    r * cols + c < rows * cols := by
  calc r * cols + c < r * cols + cols := by omega
  _ = (r + 1) * cols := by ring
  _ ≤ rows * cols := Nat.mul_le_mul_right _ (by omega)

lemma state_to_coor_nat (rows cols s : Nat) (hs : s < rows * cols) :
    state_to_coor rows cols (s : Int) =
      some (((s / cols : Nat) : Int), ((s % cols : Nat) : Int)) := by
  unfold state_to_coor
  rw [if_pos (by exact_mod_cast hs), fdiv_natCast, fmod_natCast]

lemma coor_to_state_nat (rows cols r c : Nat) (hr : r < rows) (hc : c < cols) :
    coor_to_state rows cols (r : Int) (c : Int) = some ((r * cols + c : Nat) : Int) := by
  unfold coor_to_state
  rw [if_pos (show (0:Int) ≤ (r:Int) ∧ (r:Int) < (rows:Int) ∧ (0:Int) ≤ (c:Int) ∧
    (c:Int) < (cols:Int) by omega)]
  simp only [Option.some.injEq]
  push_cast
  ring

lemma applyAction_eq (r c : Int) (a : Nat) (ha : a < 9) :
    applyAction r c (a : Int) = (r + (specDelta a).1, c + (specDelta a).2) := by
  interval_cases a <;> simp [applyAction, specDelta, sub_eq_add_neg]

/-- In-domain behaviour of `_transition`: it matches the spec's delta table.
For `s < rows * cols` and `a < 9`, if the shifted coordinate is in bounds the
result is its row-major encoding with the illegality flag `false`; otherwise
the result is `s` itself with the flag `true`. -/
lemma transition_spec (rows cols s a : Nat) (hs : s < rows * cols) (ha : a < 9) :
    transition rows cols (s : Int) (a : Int) =
      if inBounds rows cols (destCoor cols s a) then
        some ((destCoor cols s a).1 * cols + (destCoor cols s a).2, false)
      else some ((s : Int), true) := by
  have hcols : 0 < cols := Nat.pos_of_ne_zero (by rintro rfl; simp at hs)
  have hdiv : s / cols < rows := (Nat.div_lt_iff_lt_mul hcols).mpr hs
  have hmod : s % cols < cols := Nat.mod_lt _ hcols
  have ha9 : (0:Int) ≤ (a : Int) ∧ (a : Int) < (numActions : Int) := by
    refine ⟨Int.natCast_nonneg a, ?_⟩
    show (a : Int) < ((9 : Nat) : Int)
    exact_mod_cast ha
  simp only [transition, state_to_coor_nat rows cols s hs, if_pos ha9,
    applyAction_eq _ _ a ha]
  by_cases hb : inBounds rows cols (destCoor cols s a)
  · rw [if_pos hb]
    obtain ⟨h1, h2, h3, h4⟩ := hb
    simp only [destCoor] at h1 h2 h3 h4 ⊢
    rw [if_neg (by push_neg; exact ⟨by omega, by omega, by omega, by omega⟩)]
    unfold coor_to_state
    rw [if_pos (by exact ⟨h1, h2, h3, h4⟩)]
    rfl
  · rw [if_neg hb]
    have hyes : (((s / cols : Nat) : Int) + (specDelta a).1 < 0 ∨
        (rows : Int) ≤ ((s / cols : Nat) : Int) + (specDelta a).1 ∨
        ((s % cols : Nat) : Int) + (specDelta a).2 < 0 ∨
        (cols : Int) ≤ ((s % cols : Nat) : Int) + (specDelta a).2) := by
      unfold inBounds destCoor at hb
      push_neg at hb
      by_contra hno
      push_neg at hno
      obtain ⟨k1, k2, k3, k4⟩ := hno
      exact absurd (hb (by omega) (by omega) (by omega)) (by omega)
    simp only [destCoor] at hb ⊢
    rw [if_pos hyes]
    rw [coor_to_state_nat rows cols (s / cols) (s % cols) hdiv hmod]
    have hsum : (s / cols) * cols + s % cols = s := by
      rw [Nat.mul_comm]
      exact Nat.div_add_mod s cols
    rw [hsum]
    rfl

lemma cast_div_mul_add_mod (s cols : Nat) :
    ((s / cols : Nat) : Int) * (cols : Int) + ((s % cols : Nat) : Int) = (s : Int) := by
  have hsum : (s / cols) * cols + s % cols = s := by
    rw [Nat.mul_comm]
    exact Nat.div_add_mod s cols
  exact_mod_cast congrArg (Nat.cast : Nat → Int) hsum

/-- C2: for every in-range state `s` and action `a` other than ABSORB,
`_transition(s, a)` returns the row-major encoding of the coordinate of `s`
shifted by the action's fixed delta with the illegality flag `false` when
that coordinate is inside the grid, and returns `s` unchanged with the flag
`true` otherwise; for ABSORB it returns `s` with the flag `false`. -/
theorem transition_matches_spec_deltas (rows cols s a : Nat)
    (hs : s < rows * cols) (ha : a < 9) :
    (a ≠ ABSORB →
      (inBounds rows cols (destCoor cols s a) →
        transition rows cols (s : Int) (a : Int) =
          some ((destCoor cols s a).1 * cols + (destCoor cols s a).2, false)) ∧
      (¬ inBounds rows cols (destCoor cols s a) →
        transition rows cols (s : Int) (a : Int) = some ((s : Int), true))) ∧
    transition rows cols (s : Int) ((ABSORB : Nat) : Int) = some ((s : Int), false) := by
  have hcols : 0 < cols := Nat.pos_of_ne_zero (by rintro rfl; simp at hs)
  have hdiv : s / cols < rows := (Nat.div_lt_iff_lt_mul hcols).mpr hs
  have hmod : s % cols < cols := Nat.mod_lt _ hcols
  constructor
  · intro _
    constructor
    · intro hb
      rw [transition_spec rows cols s a hs ha, if_pos hb]
    · intro hb
      rw [transition_spec rows cols s a hs ha, if_neg hb]
  · have h8 : specDelta ABSORB = (0, 0) := rfl
    have hc0 : ((cols : Nat) : Int) ≠ 0 := by exact_mod_cast hcols.ne'
    have hcpos : (0 : Int) < ((cols : Nat) : Int) := by exact_mod_cast hcols
    have hbnd : inBounds rows cols (destCoor cols s ABSORB) := by
      simp only [inBounds, destCoor, h8, add_zero]
      refine ⟨Int.ediv_nonneg (Int.natCast_nonneg s) (Int.natCast_nonneg cols), ?_,
        Int.natCast_nonneg _, by exact_mod_cast hmod⟩
      exact_mod_cast hdiv
    rw [transition_spec rows cols s ABSORB hs (by norm_num [ABSORB]), if_pos hbnd]
    simp only [destCoor, h8, add_zero, Option.some.injEq, Prod.mk.injEq]
    exact ⟨cast_div_mul_add_mod s cols, by trivial⟩

/-- Witness for C2 on a 2×3 grid: state 4 = (1,1); RIGHT moves to (1,2) = state 5
legally, DOWN falls off the grid, ABSORB stays put. -/
theorem transition_matches_spec_deltas_witness :
    (4 : Nat) < 2 * 3 ∧ (3 : Nat) < 9 ∧
    transition 2 3 4 3 = some (5, false) ∧
    transition 2 3 4 1 = some (4, true) ∧
    transition 2 3 4 8 = some (4, false) := by
  have h3 := transition_matches_spec_deltas 2 3 4 3 (by decide) (by decide)
  have h1 := transition_matches_spec_deltas 2 3 4 1 (by decide) (by decide)
  refine ⟨by decide, by decide, ?_, ?_, h1.2⟩
  · have := (h3.1 (by decide)).1 (by decide)
    simpa using this
  · exact (h1.1 (by decide)).2 (by decide)

/-- C8: `_transition` is total over in-range `(s, a)`: it never fails an
assertion; leaving the grid is reported through the illegality flag, not by
raising. -/
theorem transition_total_in_domain (rows cols s a : Nat)
    (hs : s < rows * cols) (ha : a < 9) :
    (transition rows cols (s : Int) (a : Int)).isSome = true := by
  rw [transition_spec rows cols s a hs ha]
  split <;> rfl

/-- Witness for C8: every (state, action) pair of a 2×2 grid. -/
theorem transition_total_in_domain_witness :
    (0 : Nat) < 2 * 2 ∧ (0 : Nat) < 9 ∧
    (transition 2 2 0 0).isSome = true ∧ (transition 2 2 3 7).isSome = true := by
  exact ⟨by decide, by decide, transition_total_in_domain 2 2 0 0 (by decide) (by decide),
    transition_total_in_domain 2 2 3 7 (by decide) (by decide)⟩

/-- C4: `state_to_coor` and `coor_to_state` are mutually inverse on the valid
ranges, with `coor_to_state(r, c) = r * cols + c`. -/
theorem coor_state_bijection (rows cols : Nat) :
    (∀ s : Nat, s < rows * cols →
      (state_to_coor rows cols (s : Int)).bind
        (fun rc => coor_to_state rows cols rc.1 rc.2) = some (s : Int)) ∧
    (∀ r c : Nat, r < rows → c < cols →
      coor_to_state rows cols (r : Int) (c : Int) = some ((r * cols + c : Nat) : Int) ∧
      (coor_to_state rows cols (r : Int) (c : Int)).bind
        (fun s2 => state_to_coor rows cols s2) = some ((r : Int), (c : Int))) := by
  constructor
  · intro s hs
    have hcols : 0 < cols := Nat.pos_of_ne_zero (by rintro rfl; simp at hs)
    have hdiv : s / cols < rows := (Nat.div_lt_iff_lt_mul hcols).mpr hs
    have hmod : s % cols < cols := Nat.mod_lt _ hcols
    rw [state_to_coor_nat rows cols s hs]
    simp only [Option.some_bind]
    rw [coor_to_state_nat rows cols _ _ hdiv hmod]
    congr 1
    exact_mod_cast congrArg (Nat.cast : Nat → Int) (by rw [Nat.mul_comm]; exact Nat.div_add_mod s cols)
  · intro r c hr hc
    refine ⟨coor_to_state_nat rows cols r c hr hc, ?_⟩
    rw [coor_to_state_nat rows cols r c hr hc]
    simp only [Option.some_bind]
    rw [state_to_coor_nat rows cols _ (encode_lt r c rows cols hr hc)]
    rw [encode_div r c cols hc, encode_mod r c cols hc]

/-- Witness for C4 on a 2×3 grid: state 4 decodes and re-encodes to itself,
and coordinate (1, 2) encodes to state 5 and decodes back. -/
theorem coor_state_bijection_witness :
    (4 : Nat) < 2 * 3 ∧ (1 : Nat) < 2 ∧ (2 : Nat) < 3 ∧
    (state_to_coor 2 3 4).bind (fun rc => coor_to_state 2 3 rc.1 rc.2) = some 4 ∧
    coor_to_state 2 3 1 2 = some 5 ∧
    (coor_to_state 2 3 1 2).bind (fun s2 => state_to_coor 2 3 s2) = some (1, 2) := by
  have h := coor_state_bijection 2 3
  have h2 := h.2 1 2 (by decide) (by decide)
  exact ⟨by decide, by decide, by decide, by simpa using h.1 4 (by decide),
    by simpa using h2.1, by simpa using h2.2⟩

/-- C5 counterexample: `MDP.__init__` accepts `S = 0` when handed a
`(0, 1)`-shaped reward array — no positivity check is performed, so the claim
that construction fails for every non-positive `stateCount` is false. -/
theorem mdp_init_accepts_zero_states : mdpInitOk 0 1 (0, 1) true = true := by decide

/-- C5 amended: `MDP.__init__` succeeds exactly when the reward array's shape
equals `(S, A)` and the transition argument is callable (the `isinstance`
asserts hold for any integer); positivity of `S` and `A` is not checked, and a
negative `S` or `A` is rejected only because no array shape can match it. -/
theorem mdp_init_ok_iff (S A : Int) (shape : Nat × Nat) (c : Bool) :
    mdpInitOk S A shape c = true ↔
      (S = (shape.1 : Int) ∧ A = (shape.2 : Int) ∧ c = true) := by
  simp [mdpInitOk, Bool.and_eq_true, decide_eq_true_iff, and_assoc]

/-- C6 counterexample: `state_to_coor(-1)` does not fail on a 2×2 grid — the
assertion only bounds `s` from above — and returns `(-1, 1)` by Python floor
division. -/
theorem state_to_coor_accepts_negative :
    (state_to_coor 2 2 (-1)).isSome = true ∧ state_to_coor 2 2 (-1) = some (-1, 1) := by
  decide

/-- C6 amended: `coor_to_state` fails exactly on coordinates outside
`[0, rows) × [0, cols)`, while `state_to_coor` fails exactly when
`s ≥ rows * cols`; negative `s` is accepted. -/
theorem coor_bounds_failure_iff (rows cols : Nat) (r c s : Int) :
    ((coor_to_state rows cols r c).isSome = true ↔
      (0 ≤ r ∧ r < (rows : Int) ∧ 0 ≤ c ∧ c < (cols : Int))) ∧
    ((state_to_coor rows cols s).isSome = true ↔ s < ((rows * cols : Nat) : Int)) := by
  constructor
  · unfold coor_to_state
    split <;> simp_all
  · unfold state_to_coor
    split <;> simp_all

lemma npIdx_natCast (S g : Nat) (hg : g < S) : npIdx S (g : Int) = some g := by
  unfold npIdx
  rw [if_pos (by omega)]
  simp

/-- C3: immediately after `set_goal(g)` with a valid state index `g`, the
ABSORB column of the table is 0 at `g` and `-inf` at every other state; after
`set_goal(None)` it is `-inf` everywhere — whatever table the call started
from. -/
theorem set_goal_absorb_column (S : Nat) (t : Nat → Nat → Rw) :
    (∀ g : Nat, g < S → ∀ t2, set_goal S t (some (g : Int)) = some t2 →
      ∀ s : Nat, s < S → (if s = g then t2 s ABSORB = 0 else t2 s ABSORB = ⊥)) ∧
    (∀ t2, set_goal S t none = some t2 → ∀ s : Nat, t2 s ABSORB = ⊥) := by
  constructor
  · rintro g hg t2 ht2 s hs
    simp only [set_goal] at ht2
    rw [npIdx_natCast S g hg] at ht2
    simp only [Option.map_some', Option.some.injEq] at ht2
    subst ht2
    by_cases h : s = g
    · subst h
      simp
    · simp [h]
  · rintro t2 ht2 s
    simp only [set_goal] at ht2
    simp only [Option.some.injEq] at ht2
    subst ht2
    simp

/-- A base table for concrete witnesses: every entry 5. -/
def wBase : Nat → Nat → Rw := fun _ _ => ((5 : ℚ) : Rw)

/-- `wBase` after `set_goal 2 _ (some 1)`. -/
def wGoal1 : Nat → Nat → Rw := fun s a =>
  if s = 1 ∧ a = ABSORB then (0 : Rw) else if a = ABSORB then (⊥ : Rw) else wBase s a

/-- `wBase` after `set_goal 1 _ (some 0)`. -/
def wGoal0 : Nat → Nat → Rw := fun s a =>
  if s = 0 ∧ a = ABSORB then (0 : Rw) else if a = ABSORB then (⊥ : Rw) else wBase s a

/-- `wBase` after `set_goal _ _ none`. -/
def wAbs : Nat → Nat → Rw := fun s a => if a = ABSORB then (⊥ : Rw) else wBase s a

/-- Witness for C3 on a 2-state table with goal 1. -/
theorem set_goal_absorb_column_witness :
    (1 : Nat) < 2 ∧
    (if (0 : Nat) = 1 then wGoal1 0 ABSORB = 0 else wGoal1 0 ABSORB = ⊥) ∧
    (if (1 : Nat) = 1 then wGoal1 1 ABSORB = 0 else wGoal1 1 ABSORB = ⊥) ∧
    wAbs 0 ABSORB = ⊥ := by
  have h := set_goal_absorb_column 2 wBase
  have h1 := h.1 1 (by decide) wGoal1 (by exact rfl)
  exact ⟨by decide, h1 0 (by decide), h1 1 (by decide), h.2 wAbs (by exact rfl) 0⟩

/-- C7: any successful `set_goal` call rewrites only the ABSORB column —
every entry of every other column is unchanged — and repeating the call with
the same argument returns the very same table. -/
theorem set_goal_frame_and_idempotent (S : Nat) (t t2 : Nat → Nat → Rw)
    (goal : Option Int) (h : set_goal S t goal = some t2) :
    (∀ s a : Nat, a ≠ ABSORB → t2 s a = t s a) ∧ set_goal S t2 goal = some t2 := by
  cases goal with
  | none =>
    simp only [set_goal] at h ⊢
    simp only [Option.some.injEq] at h
    subst h
    refine ⟨fun s a ha => by simp [ha], ?_⟩
    simp only [Option.some.injEq]
    funext s a
    by_cases ha : a = ABSORB <;> simp [ha]
  | some g =>
    simp only [set_goal] at h ⊢
    rcases hi : npIdx S g with _ | i
    · rw [hi] at h
      simp at h
    · rw [hi] at h
      simp only [Option.map_some', Option.some.injEq] at h
      subst h
      refine ⟨fun s a ha => by simp [ha], ?_⟩
      simp only [Option.map_some', Option.some.injEq]
      funext s a
      by_cases hsa : s = i ∧ a = ABSORB
      · simp [hsa]
      · by_cases ha : a = ABSORB
        · simp [hsa, ha]
        · simp [hsa, ha]

/-- Witness for C7: `set_goal 2 wBase (some 1)` leaves column RIGHT alone and
is idempotent. -/
theorem set_goal_frame_and_idempotent_witness :
    wGoal1 0 3 = wBase 0 3 ∧ set_goal 2 wGoal1 (some 1) = some wGoal1 := by
  have h := set_goal_frame_and_idempotent 2 wBase wGoal1 (some 1) (by exact rfl)
  exact ⟨h.1 0 3 (by decide), h.2⟩

/-- C10: `set_goal` with a negative goal `g`, `-S ≤ g < 0`, does not fail:
numpy indexing writes the 0 at row `S + g`, so the resulting table is the one
`set_goal(S + g)` produces. -/
theorem set_goal_negative_index (S : Nat) (t t2 : Nat → Nat → Rw) (g : Int)
    (h1 : -(S : Int) ≤ g) (h2 : g < 0)
    (h3 : set_goal S t (some g) = some t2) :
    (set_goal S t (some g)).isSome = true ∧
    set_goal S t (some g) = set_goal S t (some ((S : Int) + g)) ∧
    t2 ((S : Int) + g).toNat ABSORB = 0 := by
  have hidx : npIdx S g = some ((S : Int) + g).toNat := by
    unfold npIdx
    rw [if_neg (by omega), if_pos (by omega)]
  have hidx2 : npIdx S ((S : Int) + g) = some ((S : Int) + g).toNat := by
    unfold npIdx
    rw [if_pos (by omega)]
  refine ⟨by rw [h3]; rfl, ?_, ?_⟩
  · simp only [set_goal]
    rw [hidx, hidx2]
  · simp only [set_goal] at h3
    rw [hidx] at h3
    simp only [Option.map_some', Option.some.injEq] at h3
    subst h3
    simp

/-- Witness for C10: goal `-1` on a 2-state table behaves as goal `1`. -/
theorem set_goal_negative_index_witness :
    -((2 : Nat) : Int) ≤ -1 ∧ (-1 : Int) < 0 ∧
    (set_goal 2 wBase (some (-1))).isSome = true ∧
    set_goal 2 wBase (some (-1)) = set_goal 2 wBase (some (((2 : Nat) : Int) + -1)) ∧
    wGoal1 (((2 : Nat) : Int) + -1).toNat ABSORB = 0 := by
  have h := set_goal_negative_index 2 wBase wGoal1 (-1) (by decide) (by decide) (by exact rfl)
  exact ⟨by decide, by decide, h.1, h.2.1, h.2.2⟩

lemma state_to_coor_encode (rows cols : Nat) (r c : Int)
    (h1 : 0 ≤ r) (h2 : r < (rows : Int)) (h3 : 0 ≤ c) (h4 : c < (cols : Int)) :
    state_to_coor rows cols (r * cols + c) = some (r, c) := by
  obtain ⟨r2, rfl⟩ : ∃ r2 : Nat, (r2 : Int) = r := ⟨r.toNat, Int.toNat_of_nonneg h1⟩
  obtain ⟨c2, rfl⟩ : ∃ c2 : Nat, (c2 : Int) = c := ⟨c.toNat, Int.toNat_of_nonneg h3⟩
  have hr2 : r2 < rows := by exact_mod_cast h2
  have hc2 : c2 < cols := by exact_mod_cast h4
  have hcast : (r2 : Int) * cols + c2 = ((r2 * cols + c2 : Nat) : Int) := by
    push_cast
    ring
  rw [hcast, state_to_coor_nat rows cols _ (encode_lt r2 c2 rows cols hr2 hc2),
    encode_div r2 c2 cols hc2, encode_mod r2 c2 cols hc2]

/-- In-domain behaviour of the reward-table filling loop: the entry for a
legal `(s, a)` is the override at the destination coordinate when present
(default otherwise), and the entry for an illegal `(s, a)` is `-inf`. -/
lemma buildRewards_spec (rows cols : Nat) (rdict : List ((Int × Int) × ℚ))
    (d : ℚ) (s a : Nat) (hs : s < rows * cols) (ha : a < 9) :
    buildRewards rows cols rdict d s a =
      if inBounds rows cols (destCoor cols s a) then
        (match List.lookup (destCoor cols s a) rdict with
         | some v => (v : Rw)
         | none => (d : Rw))
      else (⊥ : Rw) := by
  simp only [buildRewards, transition_spec rows cols s a hs ha]
  by_cases hb : inBounds rows cols (destCoor cols s a)
  · rw [if_pos hb, if_pos hb]
    obtain ⟨h1, h2, h3, h4⟩ := hb
    simp only [state_to_coor_encode rows cols _ _ h1 h2 h3 h4]
    simp [Prod.mk.eta]
  · rw [if_neg hb, if_neg hb]
    simp only [state_to_coor_nat rows cols s hs]
    simp

/-- C1: immediately after construction, every reward-table entry follows the
precedence default < override-at-destination < illegal(-inf) < ABSORB
(0 at the goal, -inf elsewhere). -/
theorem gridWorld_reward_table_invariant (rows cols : Nat)
    (rdict : List ((Int × Int) × ℚ)) (goal : Option Nat) (d : ℚ)
    (t : Nat → Nat → Rw)
    (hgoal : ∀ g ∈ goal, g < rows * cols)
    (ht : gridWorldInit rows cols rdict (Option.map (Nat.cast : Nat → Int) goal) d = some t)
    (s a : Nat) (hs : s < rows * cols) (ha : a < 9) :
    t s a =
      if a = ABSORB then (if goal = some s then (0 : Rw) else (⊥ : Rw))
      else if inBounds rows cols (destCoor cols s a) then
        (match List.lookup (destCoor cols s a) rdict with
         | some v => (v : Rw)
         | none => (d : Rw))
      else (⊥ : Rw) := by
  have hrc : 0 < rows ∧ 0 < cols := by
    constructor <;> (apply Nat.pos_of_ne_zero; rintro rfl; simp at hs)
  rw [gridWorldInit, if_pos hrc] at ht
  rcases hsr : buildStateRewards rows cols rdict d with _ | sr <;> rw [hsr] at ht
  · simp at ht
  · simp only [Option.some_bind] at ht
    cases goal with
    | none =>
      simp only [Option.map_none', set_goal, Option.some.injEq] at ht
      subst ht
      change (if a = ABSORB then (⊥ : Rw) else buildRewards rows cols rdict d s a) = _
      by_cases ha8 : a = ABSORB
      · rw [if_pos ha8, if_pos ha8, if_neg (by simp)]
      · rw [if_neg ha8, if_neg ha8]
        exact buildRewards_spec rows cols rdict d s a hs ha
    | some g =>
      have hg : g < rows * cols := hgoal g rfl
      simp only [Option.map_some', set_goal] at ht
      rw [npIdx_natCast (rows * cols) g hg] at ht
      simp only [Option.map_some', Option.some.injEq] at ht
      subst ht
      change (if s = g ∧ a = ABSORB then (0 : Rw)
        else if a = ABSORB then (⊥ : Rw) else buildRewards rows cols rdict d s a) = _
      by_cases ha8 : a = ABSORB
      · subst ha8
        by_cases hsg : s = g
        · subst hsg
          simp
        · have hgs : ¬ g = s := fun h => hsg h.symm
          simp [hsg, hgs]
      · have hnot : ¬ (s = g ∧ a = ABSORB) := by tauto
        rw [if_neg hnot, if_neg ha8, if_neg ha8]
        exact buildRewards_spec rows cols rdict d s a hs ha

/-- The reward table of the spec's concrete scenario: a 2×2 grid with
override `(1,1) ↦ 10`, goal state 3, default reward 0. -/
def wInit : Nat → Nat → Rw := (gridWorldInit 2 2 [((1, 1), 10)] (some 3) 0).getD wBase

/-- Witness for C1 on the 2×2 scenario: ABSORB is 0 at the goal and -inf at
state 0; DOWN_RIGHT from state 0 reaches the override; UP from state 0 is
illegal; RIGHT from state 0 gets the default. -/
theorem gridWorld_reward_table_invariant_witness :
    wInit 3 8 = 0 ∧ wInit 0 8 = ⊥ ∧
    wInit 0 7 = ((10 : ℚ) : Rw) ∧ wInit 0 0 = ⊥ ∧ wInit 0 3 = 0 := by
  have h := gridWorld_reward_table_invariant 2 2 [((1, 1), 10)] (some 3) 0 wInit
    (by rintro g hg; simp only [Option.mem_def, Option.some.injEq] at hg; omega)
    (by exact rfl)
  refine ⟨?_, ?_, ?_, ?_, ?_⟩
  · rw [h 3 8 (by decide) (by decide)]
    decide
  · rw [h 0 8 (by decide) (by decide)]
    decide
  · rw [h 0 7 (by decide) (by decide)]
    decide
  · rw [h 0 0 (by decide) (by decide)]
    decide
  · rw [h 0 3 (by decide) (by decide)]
    decide

lemma setGoalRef_set (g : GWRef) (goal : Option Int) (st st2 : Store)
    (h : setGoalRef g goal st = some st2) :
    ∃ t2, st2 = st.set g.rid t2 := by
  simp only [setGoalRef] at h
  rcases hq : st.get? g.rid with _ | t <;> rw [hq] at h
  · simp at h
  · simp only [Option.some_bind] at h
    rcases hsg : set_goal (g.rows * g.cols) t goal with _ | t2 <;> rw [hsg] at h
    · simp at h
    · simp only [Option.map_some', Option.some.injEq] at h
      exact ⟨t2, h.symm⟩

/-- C9: `copy()` returns a new instance with the same dimensions, whose table
holds exactly the source's entries at copy time and lives at a fresh
reference; rewriting either instance's table afterwards (here via `set_goal`)
leaves the other instance's table untouched. -/
theorem copy_independent_tables (rows cols rid : Nat) (st : Store)
    (goal1 goal2 : Option Int) {g2 : GWRef} {st2 st3 st4 : Store}
    (hrid : rid < st.length)
    (hcopy : copyOp ⟨rows, cols, rid⟩ st = some (g2, st2))
    (hm1 : setGoalRef g2 goal1 st2 = some st3)
    (hm2 : setGoalRef ⟨rows, cols, rid⟩ goal2 st2 = some st4) :
    g2.rows = rows ∧ g2.cols = cols ∧ g2.rid ≠ rid ∧
    st2.get? g2.rid = st.get? rid ∧
    st2.get? rid = st.get? rid ∧
    st3.get? rid = st2.get? rid ∧
    st4.get? g2.rid = st2.get? g2.rid := by
  simp only [copyOp] at hcopy
  rcases hgw : gridWorldInit rows cols [] none 0 with _ | t0 <;> rw [hgw] at hcopy
  · simp at hcopy
  · rcases hsrc : st.get? rid with _ | tsrc <;> rw [hsrc] at hcopy
    · simp at hcopy
    · simp only [Option.some_bind, Option.map_some', Option.some.injEq,
        Prod.mk.injEq] at hcopy
      obtain ⟨hg2, hst2⟩ := hcopy
      subst hg2
      subst hst2
      obtain ⟨x3, hx3⟩ := setGoalRef_set _ _ _ _ hm1
      obtain ⟨x4, hx4⟩ := setGoalRef_set _ _ _ _ hm2
      have hne : st.length ≠ rid := by omega
      refine ⟨rfl, rfl, hne, ?_, ?_, ?_, ?_⟩
      · exact List.get?_concat_length st tsrc
      · rw [List.get?_append hrid]
        exact hsrc
      · rw [hx3]
        exact List.get?_set_ne x3 _ hne
      · rw [hx4]
        exact List.get?_set_ne x4 _ (show rid ≠ st.length by omega)

/-- Witness for C9: copying a one-table store and then reconfiguring the
goal of each instance; neither write shows up through the other reference. -/
theorem copy_independent_tables_witness :
    (0 : Nat) < 1 ∧
    [wBase, wGoal0].get? 0 = [wBase].get? 0 ∧
    ([wBase, wBase].set 1 wGoal0).get? 0 = [wBase, wBase].get? 0 ∧
    ([wBase, wBase].set 0 wAbs).get? 1 = [wBase, wBase].get? 1 := by
  have h := copy_independent_tables 1 1 0 [wBase] (some 0) none (by decide)
    (by exact rfl) (by exact rfl) (by exact rfl)
  exact ⟨by decide, h.2.2.2.2.1, h.2.2.2.2.2.1, h.2.2.2.2.2.2⟩

end Mdp
